import Mathlib

/-!
Verification of the USB debug-probe connector (`lib/stlinkusb.py`):
device discovery/selection (`__init__`), identity resolution
(`_get_serial`, `_generate_device_unique_id`) and the command transport
(`xfer`, `_write`, `_read`), shallowly embedded as executable Lean
definitions.
-/

namespace Stlink

/-! ## Command transport (`_write`, `_read`, `xfer`)

The USB device is modelled as an oracle: every low-level USB operation
(bulk write or bulk read) consumes one operation index.  `write i d`
returns `none` when the operation raises `usb.core.USBError` (a transient
error), otherwise `some c` where `c` is the byte count the USB stack
reports.  `read i n` is the data returned for a read request of `n`
bytes at operation index `i`, `none` again meaning `usb.core.USBError`. -/

structure UsbDev where
  write : Nat → List Nat → Option Nat
  read : Nat → Nat → Option (List Nat)

/-- Mutable state of the connector: `_xfer_counter` and the number of
USB operations issued so far (the oracle index). -/
structure XferSt where
  counter : Nat
  op : Nat
  deriving DecidableEq, Repr

/-- Errors of `xfer`, mirroring the distinct `StlinkException` messages:
oversized command, short write, and USB error after exhausted retries. -/
inductive XferErr where
  | cmdTooLarge (got : Nat)
  | shortWrite (got expected : Nat)
  | transportErr
  deriving DecidableEq, Repr

/-- Intermediate error classification inside one attempt: `transient` is
`usb.core.USBError` (caught and retried by `xfer`), `fatal` is a
`StlinkException` that propagates uncaught. -/
inductive AttErr where
  | transient
  | fatal (e : XferErr)
  deriving DecidableEq, Repr

/-- `StlinkUsbConnector._write` (lines 126-131): increments
`_xfer_counter`, performs the bulk write, and raises a short-write
`StlinkException` when the transmitted count differs from the data
length.  The counter is incremented before the write, so it grows even
when the write itself raises `USBError`. -/
def devWrite (dev : UsbDev) (st : XferSt) (data : List Nat) :
    Except AttErr Nat × XferSt :=
  let c1 := st.counter + 1
  match dev.write st.op data with
  | none => (.error .transient, ⟨c1, st.op + 1⟩)
  | some c =>
      if c = data.length then (.ok c, ⟨c1, st.op + 1⟩)
      else (.error (.fatal (.shortWrite c data.length)), ⟨c1, st.op + 1⟩)

/-- The read-size computation of `StlinkUsbConnector._read`
(lines 134-139): minimum 64, otherwise `(size + 3) & 0xffc` when `size`
is not a multiple of 4. -/
def read_size (size : Nat) : Nat :=
  if size < 64 then 64
  else if size % 4 ≠ 0 then (size + 3) &&& 0xffc
  else size

/-- `StlinkUsbConnector._read` (lines 133-142): reads `read_size size`
bytes from the inbound endpoint and truncates the result to `size`
bytes (`data[:size]`).  Reads do not touch `_xfer_counter`. -/
def devRead (dev : UsbDev) (st : XferSt) (size : Nat) :
    Except AttErr (List Nat) × XferSt :=
  match dev.read st.op (read_size size) with
  | none => (.error .transient, ⟨st.counter, st.op + 1⟩)
  | some data => (.ok (data.take size), ⟨st.counter, st.op + 1⟩)

/-- Python truthiness of the `data` argument: `if data:` is true for a
non-`None`, non-empty list. -/
def listTruthy : Option (List Nat) → Bool
  | none => false
  | some l => !l.isEmpty

/-- Python truthiness of the `rx_len` argument: `if rx_len:` is true
for a non-`None`, non-zero integer. -/
def natTruthy : Option Nat → Bool
  | none => false
  | some n => n != 0

/-- One iteration of the `try` block of `xfer` after the size check and
padding: write the 16-byte header, write `data` if truthy, read
`rx_len` bytes if truthy (returning `some bytes`), else return `none`. -/
def attempt (dev : UsbDev) (cmd16 : List Nat) (data : Option (List Nat))
    (rx_len : Option Nat) (st : XferSt) :
    Except AttErr (Option (List Nat)) × XferSt :=
  match devWrite dev st cmd16 with
  | (.error e, st1) => (.error e, st1)
  | (.ok _, st1) =>
      match (if listTruthy data then
               match devWrite dev st1 (data.getD []) with
               | (.error e, st2) => (.error e, st2)
               | (.ok _, st2) => (.ok (), st2)
             else (.ok (), st1) : Except AttErr Unit × XferSt) with
      | (.error e, st2) => (.error e, st2)
      | (.ok _, st2) =>
          if natTruthy rx_len then
            match devRead dev st2 (rx_len.getD 0) with
            | (.error e, st3) => (.error e, st3)
            | (.ok r, st3) => (.ok (some r), st3)
          else (.ok none, st2)

instance {ε α : Type} [DecidableEq ε] [DecidableEq α] :
    DecidableEq (Except ε α) := fun a b =>
  match a, b with
  | .ok x, .ok y =>
      if h : x = y then .isTrue (by rw [h]) else .isFalse (by simp [h])
  | .error x, .error y =>
      if h : x = y then .isTrue (by rw [h]) else .isFalse (by simp [h])
  | .ok _, .error _ => .isFalse (by simp)
  | .error _, .ok _ => .isFalse (by simp)

/-- Result of a call to `xfer`: the outcome, the final value of the
caller's (mutated) `cmd` list, the number of loop iterations performed,
and the final connector state. -/
structure XferOut where
  result : Except XferErr (Option (List Nat))
  cmdFinal : List Nat
  iters : Nat
  st : XferSt
  deriving DecidableEq, Repr

/-- The `while True` loop of `StlinkUsbConnector.xfer` (lines 144-161):
size check, in-place zero padding of `cmd` to 16 bytes, one attempt;
`usb.core.USBError` decrements `retry` and restarts the whole loop body
(with the already-padded `cmd`), or raises the wrapping
`StlinkException` once `retry` is exhausted. -/
def xferLoop (dev : UsbDev) (data : Option (List Nat))
    (rx_len : Option Nat) : List Nat → Nat → XferSt → XferOut
  | cmd, retry, st =>
    if 16 < cmd.length then ⟨.error (.cmdTooLarge cmd.length), cmd, 1, st⟩
    else
      match attempt dev (cmd ++ List.replicate (16 - cmd.length) 0) data rx_len st with
      | (.ok r, st1) =>
          ⟨.ok r, cmd ++ List.replicate (16 - cmd.length) 0, 1, st1⟩
      | (.error (.fatal e), st1) =>
          ⟨.error e, cmd ++ List.replicate (16 - cmd.length) 0, 1, st1⟩
      | (.error .transient, st1) =>
          match retry with
          | 0 => ⟨.error .transportErr, cmd ++ List.replicate (16 - cmd.length) 0, 1, st1⟩
          | r + 1 =>
              let out := xferLoop dev data rx_len
                (cmd ++ List.replicate (16 - cmd.length) 0) r st1
              { out with iters := out.iters + 1 }

/-- `StlinkUsbConnector.xfer` entry point. -/
def xfer (dev : UsbDev) (cmd : List Nat) (data : Option (List Nat))
    (rx_len : Option Nat) (retry : Nat) (st : XferSt) : XferOut :=
  xferLoop dev data rx_len cmd retry st

/-! ## Number formatting helpers (Python format strings) -/

/-- One lowercase hexadecimal digit character. -/
def hexDigit (n : Nat) : Char :=
  Char.ofNat (if n < 10 then 48 + n else 87 + n)

/-- Digits of `n` in base 16, most significant first (empty for 0);
the first argument is structural fuel. -/
def natToHexAux : Nat → Nat → List Char
  | 0, _ => []
  | f + 1, n => if n = 0 then [] else natToHexAux f (n / 16) ++ [hexDigit (n % 16)]

/-- Lowercase hexadecimal rendering of `n` (Python `"%x" % n`). -/
def natToHex (n : Nat) : List Char :=
  if n = 0 then ['0'] else natToHexAux (n + 1) n

/-- Python `f"{n:4x}"`: lowercase hex, right-aligned in a field of
width 4 padded with spaces. -/
def fmtHex4 (n : Nat) : List Char :=
  let h := natToHex n
  List.replicate (4 - h.length) ' ' ++ h

/-- Python `f"{n:04x}"`: lowercase hex, zero-padded to width 4 (used
only for the spec-side rendering of `deriveIdentity`). -/
def fmtHex04 (n : Nat) : List Char :=
  let h := natToHex n
  List.replicate (4 - h.length) '0' ++ h

/-- Python `"%.2x" % n`: lowercase hex, zero-padded to at least two
digits. -/
def fmtHex02 (n : Nat) : List Char :=
  let h := natToHex n
  List.replicate (2 - h.length) '0' ++ h

/-- Decimal digits of `n`, most significant first (empty for 0); the
first argument is structural fuel. -/
def natToDecAux : Nat → Nat → List Char
  | 0, _ => []
  | f + 1, n =>
      if n = 0 then []
      else natToDecAux f (n / 10) ++ [Char.ofNat (48 + n % 10)]

/-- Decimal rendering of `n` (Python `str(n)`). -/
def natToDec (n : Nat) : List Char :=
  if n = 0 then ['0'] else natToDecAux (n + 1) n

/-! ## SHA-1 (`hashlib.sha1`) over byte lists, word arithmetic on `Nat`
modulo `2^32`. -/

/-- 32-bit left rotation. -/
def rotl32 (n x : Nat) : Nat :=
  ((x <<< n) ||| (x >>> (32 - n))) &&& 0xffffffff

/-- Big-endian 32-bit words from a byte list (length a multiple of 4). -/
def bytesToWords : List Nat → List Nat
  | b0 :: b1 :: b2 :: b3 :: rest =>
      ((b0 <<< 24) ||| (b1 <<< 16) ||| (b2 <<< 8) ||| b3) :: bytesToWords rest
  | _ => []

/-- Extend the 16-word message schedule by `fuel` further words, each
the 1-rotation of the xor of words 3, 8, 14 and 16 back. -/
def extendW : Nat → List Nat → List Nat
  | 0, w => w
  | f + 1, w =>
      let n := w.length
      let wi := rotl32 1 ((w.getD (n - 3) 0) ^^^ (w.getD (n - 8) 0) ^^^
        (w.getD (n - 14) 0) ^^^ (w.getD (n - 16) 0))
      extendW f (w ++ [wi])

/-- SHA-1 round function for round `t`. -/
def sha1F (t b c d : Nat) : Nat :=
  if t < 20 then (b &&& c) ||| ((b ^^^ 0xffffffff) &&& d)
  else if t < 40 then b ^^^ c ^^^ d
  else if t < 60 then (b &&& c) ||| (b &&& d) ||| (c &&& d)
  else b ^^^ c ^^^ d

/-- SHA-1 round constant for round `t`. -/
def sha1K (t : Nat) : Nat :=
  if t < 20 then 0x5a827999
  else if t < 40 then 0x6ed9eba1
  else if t < 60 then 0x8f1bbcdc
  else 0xca62c1d6

/-- The 80 SHA-1 rounds over the word schedule `w`. -/
def sha1Rounds : Nat → List Nat → Nat × Nat × Nat × Nat × Nat →
    Nat × Nat × Nat × Nat × Nat
  | _, [], h => h
  | t, wi :: rest, (a, b, c, d, e) =>
      let temp := (rotl32 5 a + sha1F t b c d + e + sha1K t + wi) &&& 0xffffffff
      sha1Rounds (t + 1) rest (temp, a, rotl32 30 b, c, d)

/-- Process one 64-byte block into the running hash state. -/
def sha1Block (h : Nat × Nat × Nat × Nat × Nat) (block : List Nat) :
    Nat × Nat × Nat × Nat × Nat :=
  let w := extendW 64 (bytesToWords block)
  let (h0, h1, h2, h3, h4) := h
  let (a, b, c, d, e) := sha1Rounds 0 w h
  ((h0 + a) &&& 0xffffffff, (h1 + b) &&& 0xffffffff, (h2 + c) &&& 0xffffffff,
   (h3 + d) &&& 0xffffffff, (h4 + e) &&& 0xffffffff)

/-- Split a list into chunks of `k` elements; the first argument is
structural fuel. -/
def chunksAux (k : Nat) : Nat → List Nat → List (List Nat)
  | 0, _ => []
  | _, [] => []
  | f + 1, l => l.take k :: chunksAux k f (l.drop k)

/-- SHA-1 padding: append `0x80`, zero bytes to 56 mod 64, then the
bit length as 8 big-endian bytes. -/
def sha1Pad (msg : List Nat) : List Nat :=
  let ml := 8 * msg.length
  let zeros := (120 - (msg.length + 1) % 64) % 64
  msg ++ [0x80] ++ List.replicate zeros 0 ++
    [(ml >>> 56) &&& 0xff, (ml >>> 48) &&& 0xff, (ml >>> 40) &&& 0xff,
     (ml >>> 32) &&& 0xff, (ml >>> 24) &&& 0xff, (ml >>> 16) &&& 0xff,
     (ml >>> 8) &&& 0xff, ml &&& 0xff]

/-- Big-endian bytes of a 32-bit word. -/
def wordBytes (w : Nat) : List Nat :=
  [(w >>> 24) &&& 0xff, (w >>> 16) &&& 0xff, (w >>> 8) &&& 0xff, w &&& 0xff]

/-- SHA-1 digest (20 bytes) of a byte list. -/
def sha1 (msg : List Nat) : List Nat :=
  let padded := sha1Pad msg
  let blocks := chunksAux 64 padded.length padded
  let (h0, h1, h2, h3, h4) := blocks.foldl sha1Block
    (0x67452301, 0xefcdab89, 0x98badcfe, 0x10325476, 0xc3d2e1f0)
  wordBytes h0 ++ wordBytes h1 ++ wordBytes h2 ++ wordBytes h3 ++ wordBytes h4

/-! ## Base32 (`base64.b32encode`) -/

/-- The RFC 4648 base32 alphabet. -/
def b32Alphabet : List Char := "ABCDEFGHIJKLMNOPQRSTUVWXYZ234567".data

/-- Number of output characters kept for a final group of `n` input
bytes (the rest are `=` padding). -/
def b32Keep (n : Nat) : Nat :=
  match n with
  | 1 => 2
  | 2 => 4
  | 3 => 5
  | 4 => 7
  | _ => 8

/-- Encode one group of 1 to 5 bytes into 8 characters (with `=`
padding for short final groups). -/
def b32Group (g : List Nat) : List Char :=
  let bits := (g.foldl (fun acc b => acc * 256 + b) 0) <<< (8 * (5 - g.length))
  let chars := (List.range 8).map
    (fun i => (b32Alphabet.getD ((bits >>> (35 - 5 * i)) &&& 31) 'A'))
  chars.take (b32Keep g.length) ++
    List.replicate (8 - b32Keep g.length) '='

/-- `base64.b32encode` of a byte list, as characters. -/
def b32encode (l : List Nat) : List Char :=
  (chunksAux 5 l.length l).flatMap b32Group

/-! ## Identity derivation (`_generate_device_unique_id`, lines 53-69) -/

/-- Python `str` of a tuple of ints: `"(1, 2)"`, with the trailing
comma of one-element tuples (`"(3,)"`). -/
def pyTupleRepr (l : List Nat) : List Char :=
  match l with
  | [x] => '(' :: (natToDec x ++ [',', ')'])
  | _ => '(' :: (List.intercalate [',', ' '] (l.map natToDec) ++ [')'])

/-- `StlinkUsbConnector._generate_device_unique_id` (lines 53-69):
`s = f"{vid:4x},{pid:4x}," + ",".join(str(locs))` — note that
`",".join` is applied to the characters of the tuple's `str` — then
base32 of the SHA-1 digest of `s` (all characters here are ASCII, so
`s.encode()` is the character codes). -/
def generate_device_unique_id (vid pid : Nat) (locs : List Nat) : String :=
  let s := fmtHex4 vid ++ [','] ++ fmtHex4 pid ++ [','] ++
    List.intersperse ',' (pyTupleRepr locs)
  ⟨b32encode (sha1 (s.map Char.toNat))⟩

/-- Modelled from the spec words for comparison (claim on
`deriveIdentity`): vendor and product each as 4-digit zero-padded
lowercase hex, then the location parameters themselves joined by
commas, hashed with SHA-1 and base32-encoded. -/
def spec_device_unique_id (vid pid : Nat) (locs : List Nat) : String :=
  let s := fmtHex04 vid ++ [','] ++ fmtHex04 pid ++ [','] ++
    List.intercalate [','] (locs.map natToDec)
  ⟨b32encode (sha1 (s.map Char.toNat))⟩

/-! ## Serial normalization (`_get_serial`, lines 71-82) -/

/-- Membership in the regex character class `[0-9a-fA-f]`: digits
(48-57) and the ASCII range `A`-`f` (65-102, which also contains
`G`-`Z` and the punctuation 91-96), since the class range `A-f` runs
from `A` to `f`. -/
def isClassChar (c : Char) : Bool :=
  (48 ≤ c.toNat && c.toNat ≤ 57) || (65 ≤ c.toNat && c.toNat ≤ 102)

/-- Length of the leading run of class characters. -/
def classRunLen : List Char → Nat
  | [] => 0
  | c :: rest => if isClassChar c then classRunLen rest + 1 else 0

/-- End offset of the first match of `[0-9a-fA-f]+`, i.e. the value of
`re.search("[0-9a-fA-f]+", s).span()[1]`; `none` when there is no
match (where the Python code would crash on `None.span`). -/
def searchEnd : List Char → Nat → Option Nat
  | [], _ => none
  | c :: rest, pos =>
      if isClassChar c then some (pos + 1 + classRunLen rest)
      else searchEnd rest (pos + 1)

/-- The re-encoding `''.join(["%.2x" % ord(c) for c in list(serial)])`. -/
def hexDump (s : List Char) : List Char :=
  s.flatMap (fun c => fmtHex02 c.toNat)

/-- The normalization step of `_get_serial` (lines 79-82) applied to a
non-`None` resolved serial: re-encode as a hex dump when the first
class-character run does not end at offset 24, else return unchanged;
`none` models the `AttributeError` when the string has no class
character at all. -/
def normalize_serial (s : String) : Option String :=
  match searchEnd s.data 0 with
  | none => none
  | some e => if e ≠ 24 then some ⟨hexDump s.data⟩ else some s

/-- Spec-side predicate for comparison: membership in the set of true
hexadecimal digit characters `0-9`, `a-f`, `A-F`. -/
def isHexDigitChar (c : Char) : Bool :=
  (48 ≤ c.toNat && c.toNat ≤ 57) || (97 ≤ c.toNat && c.toNat ≤ 102) ||
    (65 ≤ c.toNat && c.toNat ≤ 70)

/-- Modelled from the spec words: length of the longest contiguous run
of hexadecimal characters, tracking the current and best run. -/
def longestHexRunAux : List Char → Nat → Nat → Nat
  | [], cur, best => max cur best
  | c :: rest, cur, best =>
      if isHexDigitChar c then longestHexRunAux rest (cur + 1) best
      else longestHexRunAux rest 0 (max cur best)

/-- Longest contiguous run of hexadecimal characters in `s`. -/
def longestHexRun (s : List Char) : Nat :=
  longestHexRunAux s 0 0

/-! ## Device locator (`__init__`, lines 84-116) -/

/-- One entry of the `DEV_TYPES` table. -/
structure DevType where
  version : String
  idVendor : Nat
  idProduct : Nat
  outPipe : Nat
  inPipe : Nat
  deriving DecidableEq, Repr

/-- The `DEV_TYPES` catalog (lines 13-51). -/
def DEV_TYPES : List DevType :=
  [⟨"V2", 0x0483, 0x3748, 0x02, 0x81⟩,
   ⟨"V2-1", 0x0483, 0x374b, 0x01, 0x81⟩,
   ⟨"V2-1", 0x0483, 0x3752, 0x01, 0x81⟩,
   ⟨"V3E", 0x0483, 0x374e, 0x01, 0x81⟩,
   ⟨"V3", 0x0483, 0x374f, 0x01, 0x81⟩,
   ⟨"V3", 0x0483, 0x3753, 0x01, 0x81⟩]

/-- One enumerated USB device: its vendor/product IDs and the identity
string that `_get_serial` resolves for it (hardware serial, possibly
normalized, or the derived fallback). -/
structure UsbDevice where
  idVendor : Nat
  idProduct : Nat
  ident : String
  deriving DecidableEq, Repr

/-- The `(vid, pid)` match test of line 94. -/
def typeMatches (d : UsbDevice) (t : DevType) : Bool :=
  d.idVendor == t.idVendor && d.idProduct == t.idProduct

/-- Python truthiness of the `serial` argument: truthy iff a non-empty
string was supplied (`not serial` is true for `None` and `""`). -/
def serialTruthy : Option String → Bool
  | none => false
  | some s => !s.isEmpty

/-- Scan state of `__init__`: the tentative selection `self._dev` with
its matched type, `num_stlink`, and the `multiple_devices` flag. -/
structure LocSt where
  dev : Option (UsbDevice × DevType)
  numStlink : Nat
  multipleDevices : Bool
  deriving DecidableEq, Repr

/-- The inner loop over `DEV_TYPES` (lines 93-101): on each match, set
`multiple_devices` when no truthy serial was supplied, `index == 0`,
and a device was already selected; then overwrite the tentative
selection and bump `num_stlink`. -/
def scanTypes (serial : Option String) (index : Nat) (d : UsbDevice) :
    List DevType → LocSt → LocSt
  | [], st => st
  | t :: ts, st =>
      if typeMatches d t then
        let m := st.multipleDevices ||
          (!serialTruthy serial && index == 0 && st.dev.isSome)
        scanTypes serial index d ts ⟨some (d, t), st.numStlink + 1, m⟩
      else scanTypes serial index d ts st

/-- The outer loop over enumerated devices (lines 92-105): run the
inner scan, then break when a truthy supplied serial equals the
selected device's resolved identity (line 102), or when no serial was
supplied (`serial == None`) and `index == num_stlink` (line 104). -/
def scanDevices (serial : Option String) (index : Nat) :
    List UsbDevice → LocSt → LocSt
  | [], st => st
  | d :: ds, st =>
      let st1 := scanTypes serial index d DEV_TYPES st
      match st1.dev with
      | some p =>
          if serialTruthy serial && serial == some p.1.ident then st1
          else if serial == none && index == st1.numStlink then st1
          else scanDevices serial index ds st1
      | none => scanDevices serial index ds st1

/-- Construction-time failures of `__init__`. -/
inductive LocErr where
  | ambiguous
  | notFound
  deriving DecidableEq, Repr

/-- `StlinkUsbConnector.__init__` (lines 84-116) as a pure selection
function over the enumerated device list: scan, then raise
`AmbiguousSelection` when `multiple_devices` is set, return the bound
device, or raise `NotFound` when none was matched. -/
def locate (serial : Option String) (index : Nat)
    (devices : List UsbDevice) : Except LocErr (UsbDevice × DevType) :=
  let st := scanDevices serial index devices ⟨none, 0, false⟩
  if st.multipleDevices then .error .ambiguous
  else
    match st.dev with
    | some p => .ok p
    | none => .error .notFound

/-- The (vid, pid)-filtered descriptor matches of one device. -/
def devMatches (d : UsbDevice) : List DevType :=
  DEV_TYPES.filter (typeMatches d)

/-- All `(device, descriptor)` match pairs of the scan, in scan order. -/
def matchList (devs : List UsbDevice) : List (UsbDevice × DevType) :=
  devs.flatMap (fun d => (devMatches d).map (fun t => (d, t)))

/-- Number of enumerated devices matching at least one descriptor. -/
def numMatched (devs : List UsbDevice) : Nat :=
  (devs.filter (fun d => !(devMatches d).isEmpty)).length

/-- Last element of a list, else the fallback (tracks how the scan's
tentative selection evolves). -/
def lastOpt : List α → Option α → Option α
  | [], a => a
  | x :: xs, _ => lastOpt xs (some x)

/-! ## Concrete instances used by witnesses and counterexamples -/

/-- A well-behaved USB device: every write reports the full length,
every read returns exactly the requested bytes. -/
def devOk : UsbDev :=
  ⟨fun _ d => some d.length, fun _ n => some (List.range n)⟩

/-- A USB device on which every operation raises `usb.core.USBError`. -/
def devBad : UsbDev := ⟨fun _ _ => none, fun _ _ => none⟩

/-- A 17-byte command, one over the 16-byte limit. -/
def cmd17 : List Nat := List.replicate 17 0

/-- An enumerated ST-Link/V2 device with identity `"AAA"`. -/
def dA : UsbDevice := ⟨0x0483, 0x3748, "AAA"⟩

/-- An enumerated ST-Link/V2-1 device with identity `"BBB"`. -/
def dB : UsbDevice := ⟨0x0483, 0x374b, "BBB"⟩

/-! ## Transport lemmas -/

/-- Padding a command of length at most 16 yields exactly 16 bytes. -/
lemma pad_length (cmd : List Nat) (h : cmd.length ≤ 16) :
    (cmd ++ List.replicate (16 - cmd.length) 0).length = 16 := by
  simp only [List.length_append, List.length_replicate]
  omega

/-- On a device whose writes all fail, an attempt fails transiently
after exactly one USB operation, with the counter bumped once. -/
lemma attempt_allfail (dev : UsbDev) (hw : ∀ i d, dev.write i d = none)
    (c16 : List Nat) (data : Option (List Nat)) (rx : Option Nat)
    (st : XferSt) :
    attempt dev c16 data rx st =
      (.error .transient, ⟨st.counter + 1, st.op + 1⟩) := by
  unfold attempt devWrite
  rw [hw]

/-- Step lemma: an oversized command exits immediately with the size
error and an untouched state. -/
lemma xferLoop_big (dev : UsbDev) (data : Option (List Nat))
    (rx : Option Nat) (cmd : List Nat) (retry : Nat) (st : XferSt)
    (h : 16 < cmd.length) :
    xferLoop dev data rx cmd retry st =
      ⟨.error (.cmdTooLarge cmd.length), cmd, 1, st⟩ := by
  rw [xferLoop, if_pos h]

/-- Step lemma: a successful attempt exits with its value. -/
lemma xferLoop_ok (dev : UsbDev) (data : Option (List Nat))
    (rx : Option Nat) (cmd : List Nat) (retry : Nat) (st st1 : XferSt)
    (v : Option (List Nat)) (h : ¬16 < cmd.length)
    (ha : attempt dev (cmd ++ List.replicate (16 - cmd.length) 0) data rx st
      = (.ok v, st1)) :
    xferLoop dev data rx cmd retry st =
      ⟨.ok v, cmd ++ List.replicate (16 - cmd.length) 0, 1, st1⟩ := by
  rw [xferLoop, if_neg h, ha]

/-- Step lemma: a fatal (`StlinkException`) attempt error propagates
without retry. -/
lemma xferLoop_fatal (dev : UsbDev) (data : Option (List Nat))
    (rx : Option Nat) (cmd : List Nat) (retry : Nat) (st st1 : XferSt)
    (e : XferErr) (h : ¬16 < cmd.length)
    (ha : attempt dev (cmd ++ List.replicate (16 - cmd.length) 0) data rx st
      = (.error (.fatal e), st1)) :
    xferLoop dev data rx cmd retry st =
      ⟨.error e, cmd ++ List.replicate (16 - cmd.length) 0, 1, st1⟩ := by
  rw [xferLoop, if_neg h, ha]

/-- Step lemma: a transient error with no retries left becomes the
transport error. -/
lemma xferLoop_last (dev : UsbDev) (data : Option (List Nat))
    (rx : Option Nat) (cmd : List Nat) (st st1 : XferSt)
    (h : ¬16 < cmd.length)
    (ha : attempt dev (cmd ++ List.replicate (16 - cmd.length) 0) data rx st
      = (.error .transient, st1)) :
    xferLoop dev data rx cmd 0 st =
      ⟨.error .transportErr, cmd ++ List.replicate (16 - cmd.length) 0, 1, st1⟩ := by
  rw [xferLoop, if_neg h, ha]

/-- Step lemma: a transient error with `retry = r + 1` restarts the
loop on the padded command with one retry fewer. -/
lemma xferLoop_retry (dev : UsbDev) (data : Option (List Nat))
    (rx : Option Nat) (cmd : List Nat) (r : Nat) (st st1 : XferSt)
    (h : ¬16 < cmd.length)
    (ha : attempt dev (cmd ++ List.replicate (16 - cmd.length) 0) data rx st
      = (.error .transient, st1)) :
    xferLoop dev data rx cmd (r + 1) st =
      { xferLoop dev data rx (cmd ++ List.replicate (16 - cmd.length) 0) r st1 with
        iters := (xferLoop dev data rx
          (cmd ++ List.replicate (16 - cmd.length) 0) r st1).iters + 1 } := by
  conv_lhs => rw [xferLoop]
  rw [if_neg h, ha]

/-- After a `devWrite` of any outcome, the counter grew by one and one
USB operation was consumed. -/
lemma devWrite_st (dev : UsbDev) (st : XferSt) (d : List Nat) :
    (devWrite dev st d).2 = ⟨st.counter + 1, st.op + 1⟩ := by
  unfold devWrite
  cases h : dev.write st.op d
  · rfl
  · simp only []
    split <;> rfl

/-- After a `devRead` of any outcome, the counter is unchanged and one
USB operation was consumed. -/
lemma devRead_st (dev : UsbDev) (st : XferSt) (n : Nat) :
    (devRead dev st n).2 = ⟨st.counter, st.op + 1⟩ := by
  unfold devRead
  cases h : dev.read st.op (read_size n) <;> rfl

/-- Path lemma: the header write fails. -/
lemma attempt_hdr_err (dev : UsbDev) (c16 : List Nat)
    (data : Option (List Nat)) (rx : Option Nat) (st st1 : XferSt)
    (e : AttErr) (h1 : devWrite dev st c16 = (.error e, st1)) :
    attempt dev c16 data rx st = (.error e, st1) := by
  simp only [attempt, h1]

/-- Path lemma: the header write succeeds and the data write fails. -/
lemma attempt_data_err (dev : UsbDev) (c16 : List Nat)
    (data : Option (List Nat)) (rx : Option Nat) (st st1 st2 : XferSt)
    (c : Nat) (e : AttErr) (h1 : devWrite dev st c16 = (.ok c, st1))
    (hld : listTruthy data = true)
    (h2 : devWrite dev st1 (data.getD []) = (.error e, st2)) :
    attempt dev c16 data rx st = (.error e, st2) := by
  simp only [attempt, h1, hld, if_true, h2]

/-- Path lemma: header write succeeds, no truthy data, no truthy
`rx_len`: the attempt returns `none`. -/
lemma attempt_plain (dev : UsbDev) (c16 : List Nat)
    (data : Option (List Nat)) (rx : Option Nat) (st st1 : XferSt)
    (c : Nat) (h1 : devWrite dev st c16 = (.ok c, st1))
    (hld : listTruthy data = false) (hrx : natTruthy rx = false) :
    attempt dev c16 data rx st = (.ok none, st1) := by
  simp only [attempt, h1, hld, hrx, Bool.false_eq_true, if_false]

/-- Path lemma: header write succeeds, no truthy data, read performed. -/
lemma attempt_plain_read (dev : UsbDev) (c16 : List Nat)
    (data : Option (List Nat)) (rx : Option Nat) (st st1 st3 : XferSt)
    (c : Nat) (res : Except AttErr (List Nat))
    (h1 : devWrite dev st c16 = (.ok c, st1))
    (hld : listTruthy data = false) (hrx : natTruthy rx = true)
    (h3 : devRead dev st1 (rx.getD 0) = (res, st3)) :
    attempt dev c16 data rx st =
      ((match res with
        | .error e => .error e
        | .ok r => .ok (some r)), st3) := by
  simp only [attempt, h1, hld, hrx, Bool.false_eq_true, if_false, if_true, h3]
  cases res <;> rfl

/-- Path lemma: header and data writes succeed, no truthy `rx_len`. -/
lemma attempt_data (dev : UsbDev) (c16 : List Nat)
    (data : Option (List Nat)) (rx : Option Nat) (st st1 st2 : XferSt)
    (c c2 : Nat) (h1 : devWrite dev st c16 = (.ok c, st1))
    (hld : listTruthy data = true)
    (h2 : devWrite dev st1 (data.getD []) = (.ok c2, st2))
    (hrx : natTruthy rx = false) :
    attempt dev c16 data rx st = (.ok none, st2) := by
  simp only [attempt, h1, hld, if_true, h2, hrx, Bool.false_eq_true, if_false]

/-- Path lemma: header and data writes succeed, read performed. -/
lemma attempt_data_read (dev : UsbDev) (c16 : List Nat)
    (data : Option (List Nat)) (rx : Option Nat) (st st1 st2 st3 : XferSt)
    (c c2 : Nat) (res : Except AttErr (List Nat))
    (h1 : devWrite dev st c16 = (.ok c, st1))
    (hld : listTruthy data = true)
    (h2 : devWrite dev st1 (data.getD []) = (.ok c2, st2))
    (hrx : natTruthy rx = true)
    (h3 : devRead dev st2 (rx.getD 0) = (res, st3)) :
    attempt dev c16 data rx st =
      ((match res with
        | .error e => .error e
        | .ok r => .ok (some r)), st3) := by
  simp only [attempt, h1, hld, if_true, h2, hrx, h3]
  cases res <;> rfl

/-- Counter accounting of one attempt: the counter always grows by at
least one (the header write), and a successful attempt grows it by
exactly one plus one more when a truthy `data` payload is written. -/
lemma attempt_counter_spec (dev : UsbDev) (c16 : List Nat)
    (data : Option (List Nat)) (rx : Option Nat) (st : XferSt) :
    st.counter + 1 ≤ (attempt dev c16 data rx st).2.counter ∧
    (∀ v, (attempt dev c16 data rx st).1 = .ok v →
      (attempt dev c16 data rx st).2.counter =
        st.counter + (if listTruthy data then 2 else 1)) := by
  rcases h1 : devWrite dev st c16 with ⟨r1, st1⟩
  have e1 : st1 = ⟨st.counter + 1, st.op + 1⟩ := by
    have h := devWrite_st dev st c16
    rw [h1] at h
    exact h
  subst e1
  cases r1 with
  | error e =>
      rw [attempt_hdr_err dev c16 data rx st _ e h1]
      exact ⟨le_refl _, fun v hv => by simp at hv⟩
  | ok c =>
      cases hld : listTruthy data with
      | false =>
          cases hrx : natTruthy rx with
          | false =>
              rw [attempt_plain dev c16 data rx st _ c h1 hld hrx]
              exact ⟨le_refl _, fun v _ => rfl⟩
          | true =>
              rcases h3 : devRead dev ⟨st.counter + 1, st.op + 1⟩ (rx.getD 0)
                with ⟨r3, st3⟩
              have e3 : st3 = ⟨st.counter + 1, st.op + 1 + 1⟩ := by
                have h := devRead_st dev ⟨st.counter + 1, st.op + 1⟩ (rx.getD 0)
                rw [h3] at h
                exact h
              subst e3
              rw [attempt_plain_read dev c16 data rx st _ _ c r3 h1 hld hrx h3]
              cases r3 with
              | error e => exact ⟨le_refl _, fun v hv => by simp at hv⟩
              | ok l => exact ⟨le_refl _, fun v _ => rfl⟩
      | true =>
          rcases h2 : devWrite dev ⟨st.counter + 1, st.op + 1⟩ (data.getD [])
            with ⟨r2, st2⟩
          have e2 : st2 = ⟨st.counter + 1 + 1, st.op + 1 + 1⟩ := by
            have h := devWrite_st dev ⟨st.counter + 1, st.op + 1⟩ (data.getD [])
            rw [h2] at h
            exact h
          subst e2
          cases r2 with
          | error e =>
              rw [attempt_data_err dev c16 data rx st _ _ c e h1 hld h2]
              exact ⟨(by omega : st.counter + 1 ≤ st.counter + 1 + 1),
                fun v hv => by simp at hv⟩
          | ok c2 =>
              cases hrx : natTruthy rx with
              | false =>
                  rw [attempt_data dev c16 data rx st _ _ c c2 h1 hld h2 hrx]
                  exact ⟨(by omega : st.counter + 1 ≤ st.counter + 1 + 1),
                    fun v _ => rfl⟩
              | true =>
                  rcases h3 : devRead dev ⟨st.counter + 1 + 1, st.op + 1 + 1⟩
                    (rx.getD 0) with ⟨r3, st3⟩
                  have e3 : st3 = ⟨st.counter + 1 + 1, st.op + 1 + 1 + 1⟩ := by
                    have h := devRead_st dev ⟨st.counter + 1 + 1, st.op + 1 + 1⟩
                      (rx.getD 0)
                    rw [h3] at h
                    exact h
                  subst e3
                  rw [attempt_data_read dev c16 data rx st _ _ _ c c2 r3
                    h1 hld h2 hrx h3]
                  cases r3 with
                  | error e =>
                      exact ⟨(by omega : st.counter + 1 ≤ st.counter + 1 + 1),
                        fun v hv => by simp at hv⟩
                  | ok l =>
                      exact ⟨(by omega : st.counter + 1 ≤ st.counter + 1 + 1),
                        fun v _ => rfl⟩

/-- C6 core: with every write failing, the retry loop runs `r + 1`
iterations and surfaces the transport error, one USB operation and one
counter bump per iteration. -/
lemma xferLoop_allfail (dev : UsbDev) (hw : ∀ i d, dev.write i d = none)
    (data : Option (List Nat)) (rx : Option Nat) :
    ∀ (r : Nat) (cmd : List Nat) (st : XferSt), cmd.length ≤ 16 →
      (xferLoop dev data rx cmd r st).result = .error .transportErr ∧
      (xferLoop dev data rx cmd r st).iters = r + 1 ∧
      (xferLoop dev data rx cmd r st).st.op = st.op + (r + 1) ∧
      (xferLoop dev data rx cmd r st).st.counter = st.counter + (r + 1) := by
  intro r
  induction r with
  | zero =>
      intro cmd st h
      rw [xferLoop_last dev data rx cmd st _ (by omega)
        (attempt_allfail dev hw _ data rx st)]
      exact ⟨rfl, rfl, rfl, rfl⟩
  | succ r ih =>
      intro cmd st h
      rw [xferLoop_retry dev data rx cmd r st _ (by omega)
        (attempt_allfail dev hw _ data rx st)]
      obtain ⟨h1, h2, h3, h4⟩ :=
        ih (cmd ++ List.replicate (16 - cmd.length) 0) ⟨st.counter + 1, st.op + 1⟩
          (by rw [pad_length cmd h])
      refine ⟨h1, ?_, ?_, ?_⟩
      · simp only [h2]
      · simp only [h3]; omega
      · simp only [h4]; omega

/-- Counter of the whole retry loop never grows by less than one once
the size check passes (the header write of the first attempt). -/
lemma xferLoop_counter_ge (dev : UsbDev) (data : Option (List Nat))
    (rx : Option Nat) :
    ∀ (r : Nat) (cmd : List Nat) (st : XferSt), cmd.length ≤ 16 →
      st.counter + 1 ≤ (xferLoop dev data rx cmd r st).st.counter := by
  intro r
  induction r with
  | zero =>
      intro cmd st h
      rcases ha : attempt dev (cmd ++ List.replicate (16 - cmd.length) 0)
        data rx st with ⟨res, st1⟩
      have hge := (attempt_counter_spec dev
        (cmd ++ List.replicate (16 - cmd.length) 0) data rx st).1
      rw [ha] at hge
      cases res with
      | ok v =>
          rw [xferLoop_ok dev data rx cmd 0 st st1 v (by omega) ha]
          exact hge
      | error e =>
          cases e with
          | fatal e2 =>
              rw [xferLoop_fatal dev data rx cmd 0 st st1 e2 (by omega) ha]
              exact hge
          | transient =>
              rw [xferLoop_last dev data rx cmd st st1 (by omega) ha]
              exact hge
  | succ r2 ih =>
      intro cmd st h
      rcases ha : attempt dev (cmd ++ List.replicate (16 - cmd.length) 0)
        data rx st with ⟨res, st1⟩
      have hge := (attempt_counter_spec dev
        (cmd ++ List.replicate (16 - cmd.length) 0) data rx st).1
      rw [ha] at hge
      cases res with
      | ok v =>
          rw [xferLoop_ok dev data rx cmd (r2 + 1) st st1 v (by omega) ha]
          exact hge
      | error e =>
          cases e with
          | fatal e2 =>
              rw [xferLoop_fatal dev data rx cmd (r2 + 1) st st1 e2 (by omega) ha]
              exact hge
          | transient =>
              rw [xferLoop_retry dev data rx cmd r2 st st1 (by omega) ha]
              have h2 := ih (cmd ++ List.replicate (16 - cmd.length) 0) st1
                (by rw [pad_length cmd h])
              simp only [Prod.snd] at hge
              show st.counter + 1 ≤
                (xferLoop dev data rx (cmd ++ List.replicate (16 - cmd.length) 0)
                  r2 st1).st.counter
              omega

/-- Once the command is already 16 bytes, further padding is a no-op
and the loop's final command is the command itself. -/
lemma xferLoop_cmd16 (dev : UsbDev) (data : Option (List Nat))
    (rx : Option Nat) :
    ∀ (r : Nat) (cmd : List Nat) (st : XferSt), cmd.length = 16 →
      (xferLoop dev data rx cmd r st).cmdFinal = cmd := by
  intro r
  induction r with
  | zero =>
      intro cmd st h
      have hpad : cmd ++ List.replicate (16 - cmd.length) 0 = cmd := by
        rw [h]
        simp
      rcases ha : attempt dev (cmd ++ List.replicate (16 - cmd.length) 0)
        data rx st with ⟨res, st1⟩
      cases res with
      | ok v =>
          rw [xferLoop_ok dev data rx cmd 0 st st1 v (by omega) ha]
          exact hpad
      | error e =>
          cases e with
          | fatal e2 =>
              rw [xferLoop_fatal dev data rx cmd 0 st st1 e2 (by omega) ha]
              exact hpad
          | transient =>
              rw [xferLoop_last dev data rx cmd st st1 (by omega) ha]
              exact hpad
  | succ r2 ih =>
      intro cmd st h
      have hpad : cmd ++ List.replicate (16 - cmd.length) 0 = cmd := by
        rw [h]
        simp
      rcases ha : attempt dev (cmd ++ List.replicate (16 - cmd.length) 0)
        data rx st with ⟨res, st1⟩
      cases res with
      | ok v =>
          rw [xferLoop_ok dev data rx cmd (r2 + 1) st st1 v (by omega) ha]
          exact hpad
      | error e =>
          cases e with
          | fatal e2 =>
              rw [xferLoop_fatal dev data rx cmd (r2 + 1) st st1 e2 (by omega) ha]
              exact hpad
          | transient =>
              rw [xferLoop_retry dev data rx cmd r2 st st1 (by omega) ha]
              show (xferLoop dev data rx (cmd ++ List.replicate (16 - cmd.length) 0)
                r2 st1).cmdFinal = cmd
              rw [hpad]
              exact ih cmd st1 h

/-! ## Claim theorems: command transport -/

/-- C8: a command longer than 16 bytes (e.g. 17) makes `xfer` fail with
the `CommandTooLarge` error before any USB operation is attempted (the
state, including the USB operation index, is untouched), for every
`retries` value — the failure is never retried. -/
theorem cmd_too_large_never_retried (dev : UsbDev) (cmd : List Nat)
    (data : Option (List Nat)) (rx : Option Nat) (r : Nat) (st : XferSt)
    (h : 16 < cmd.length) :
    xfer dev cmd data rx r st =
      ⟨.error (.cmdTooLarge cmd.length), cmd, 1, st⟩ := by
  unfold xfer
  exact xferLoop_big dev data rx cmd r st h

/-- Witness for C8 at a concrete 17-byte command. -/
theorem cmd_too_large_never_retried_w :
    cmd17.length = 17 ∧
    xfer devBad cmd17 none none 5 ⟨0, 0⟩ =
      ⟨.error (.cmdTooLarge cmd17.length), cmd17, 1, ⟨0, 0⟩⟩ :=
  ⟨by decide,
   cmd_too_large_never_retried devBad cmd17 none none 5 ⟨0, 0⟩ (by decide)⟩

/-- C6: when every USB write raises the transient `USBError`, a call
with `retry = r` performs exactly `r + 1` loop iterations (each
restarting the whole sequence from the top, consuming one USB
operation and one counter bump at the failing header write) and then
fails with the wrapping transport error; with `retry = 0` it fails
after the single first attempt. -/
theorem transient_retry_count (dev : UsbDev) (cmd : List Nat)
    (data : Option (List Nat)) (rx : Option Nat) (r : Nat) (st : XferSt)
    (h : cmd.length ≤ 16) (hw : ∀ i d, dev.write i d = none) :
    (xfer dev cmd data rx r st).result = .error .transportErr ∧
    (xfer dev cmd data rx r st).iters = r + 1 ∧
    (xfer dev cmd data rx r st).st.op = st.op + (r + 1) ∧
    (xfer dev cmd data rx r st).st.counter = st.counter + (r + 1) :=
  xferLoop_allfail dev hw data rx r cmd st h

/-- Witness for C6: `retry = 2` yields exactly 3 attempts, `retry = 0`
exactly one. -/
theorem transient_retry_count_w :
    ((xfer devBad [1] none none 2 ⟨0, 0⟩).result = .error .transportErr ∧
     (xfer devBad [1] none none 2 ⟨0, 0⟩).iters = 2 + 1 ∧
     (xfer devBad [1] none none 2 ⟨0, 0⟩).st.op = 0 + (2 + 1) ∧
     (xfer devBad [1] none none 2 ⟨0, 0⟩).st.counter = 0 + (2 + 1)) ∧
    (xfer devBad [1] none none 0 ⟨0, 0⟩).result = .error .transportErr :=
  ⟨transient_retry_count devBad [1] none none 2 ⟨0, 0⟩ (by decide)
      (fun _ _ => rfl),
   (transient_retry_count devBad [1] none none 0 ⟨0, 0⟩ (by decide)
      (fun _ _ => rfl)).1⟩

/-- C10: for a command of at most 16 bytes, the caller's list is
mutated in place by the `cmd += [0] * (16 - len(cmd))` padding: after
the call — successful or failed past the size check — the final
command is the original extended with zero bytes to exactly 16. -/
theorem cmd_padded_in_place (dev : UsbDev) (cmd : List Nat)
    (data : Option (List Nat)) (rx : Option Nat) (r : Nat) (st : XferSt)
    (h : cmd.length ≤ 16) :
    (xfer dev cmd data rx r st).cmdFinal =
      cmd ++ List.replicate (16 - cmd.length) 0 ∧
    (xfer dev cmd data rx r st).cmdFinal.length = 16 := by
  have h1 : (xfer dev cmd data rx r st).cmdFinal =
      cmd ++ List.replicate (16 - cmd.length) 0 := by
    unfold xfer
    rcases ha : attempt dev (cmd ++ List.replicate (16 - cmd.length) 0)
      data rx st with ⟨res, st1⟩
    cases res with
    | ok v => rw [xferLoop_ok dev data rx cmd r st st1 v (by omega) ha]
    | error e =>
        cases e with
        | fatal e2 => rw [xferLoop_fatal dev data rx cmd r st st1 e2 (by omega) ha]
        | transient =>
            cases r with
            | zero => rw [xferLoop_last dev data rx cmd st st1 (by omega) ha]
            | succ r2 =>
                rw [xferLoop_retry dev data rx cmd r2 st st1 (by omega) ha]
                show (xferLoop dev data rx
                  (cmd ++ List.replicate (16 - cmd.length) 0) r2 st1).cmdFinal =
                  cmd ++ List.replicate (16 - cmd.length) 0
                exact xferLoop_cmd16 dev data rx r2 _ st1 (pad_length cmd h)
  exact ⟨h1, by rw [h1]; exact pad_length cmd h⟩

/-- Witness for C10: a 1-byte command is extended to 16 bytes even when
the transfer fails. -/
theorem cmd_padded_in_place_w :
    (xfer devBad [1] none none 2 ⟨0, 0⟩).cmdFinal =
      [1] ++ List.replicate (16 - [1].length) 0 ∧
    (xfer devBad [1] none none 2 ⟨0, 0⟩).cmdFinal.length = 16 :=
  cmd_padded_in_place devBad [1] none none 2 ⟨0, 0⟩ (by decide)

/-- C1 counterexample: the transfer counter does not track successful
transfers.  A successful transfer that carries a data payload bumps the
counter by 2 (one per `_write`), and a transfer that fails with the
transport error after its writes still bumps the counter. -/
theorem xfer_counter_cex :
    (xfer devOk [1] (some [2, 3]) none 0 ⟨0, 0⟩).result = .ok none ∧
    (xfer devOk [1] (some [2, 3]) none 0 ⟨0, 0⟩).st.counter = 2 ∧
    (xfer devBad [1] none none 0 ⟨0, 0⟩).result = .error .transportErr ∧
    (xfer devBad [1] none none 0 ⟨0, 0⟩).st.counter = 1 := by
  decide

/-- C1 amended: the counter counts USB write attempts, not successful
transfers.  Once the size check passes it grows by at least one whether
the transfer succeeds or fails, and a transfer that succeeds without
retrying grows it by exactly 2 when a truthy data payload is supplied
and by exactly 1 otherwise. -/
theorem xfer_counter_per_write (dev : UsbDev) (cmd : List Nat)
    (data : Option (List Nat)) (rx : Option Nat) (r : Nat) (st : XferSt)
    (h : cmd.length ≤ 16) :
    st.counter + 1 ≤ (xfer dev cmd data rx r st).st.counter ∧
    (r = 0 → ∀ v, (xfer dev cmd data rx r st).result = .ok v →
      (xfer dev cmd data rx r st).st.counter =
        st.counter + (if listTruthy data then 2 else 1)) := by
  constructor
  · exact xferLoop_counter_ge dev data rx r cmd st h
  · rintro rfl v hv
    unfold xfer at hv ⊢
    rcases ha : attempt dev (cmd ++ List.replicate (16 - cmd.length) 0)
      data rx st with ⟨res, st1⟩
    have hok := (attempt_counter_spec dev
      (cmd ++ List.replicate (16 - cmd.length) 0) data rx st).2
    rw [ha] at hok
    cases res with
    | ok w =>
        rw [xferLoop_ok dev data rx cmd 0 st st1 w (by omega) ha] at hv ⊢
        exact hok w rfl
    | error e =>
        cases e with
        | fatal e2 =>
            rw [xferLoop_fatal dev data rx cmd 0 st st1 e2 (by omega) ha] at hv
            simp at hv
        | transient =>
            rw [xferLoop_last dev data rx cmd st st1 (by omega) ha] at hv
            simp at hv

/-- Witness for C1 amended: a successful transfer with a data payload
from a zero counter ends at exactly 2. -/
theorem xfer_counter_per_write_w :
    0 + 1 ≤ (xfer devOk [1] (some [2, 3]) none 0 ⟨0, 0⟩).st.counter ∧
    (xfer devOk [1] (some [2, 3]) none 0 ⟨0, 0⟩).st.counter =
      0 + (if listTruthy (some [2, 3]) then 2 else 1) :=
  ⟨(xfer_counter_per_write devOk [1] (some [2, 3]) none 0 ⟨0, 0⟩ (by decide)).1,
   (xfer_counter_per_write devOk [1] (some [2, 3]) none 0 ⟨0, 0⟩ (by decide)).2
     rfl none (by decide)⟩

/-! ## Claim theorems: read path (C4) -/

set_option maxRecDepth 4000 in
/-- Exhaustive check of the rounding identity on a chunked range:
for `64 ≤ n ≤ 4092` not a multiple of 4, `(n + 3) &&& 0xffc` is `n`
rounded up to the next multiple of 4. -/
lemma read_size_chunk : ∀ a, a < 41 → ∀ b, b < 100 →
    (64 ≤ 100 * a + b → (100 * a + b) % 4 ≠ 0 → 100 * a + b ≤ 4092 →
      read_size (100 * a + b) = (100 * a + b) + (4 - (100 * a + b) % 4)) := by
  decide

/-- Rounding identity for the in-range sizes. -/
lemma read_size_round (n : Nat) (h64 : 64 ≤ n) (hm : n % 4 ≠ 0)
    (hle : n ≤ 4092) : read_size n = n + (4 - n % 4) := by
  have h := read_size_chunk (n / 100) (by omega) (n % 100) (by omega)
  rw [Nat.div_add_mod] at h
  exact h h64 hm hle

/-- The read size is never below the requested size in range. -/
lemma read_size_ge (n : Nat) (hle : n ≤ 4092) : n ≤ read_size n := by
  by_cases h1 : n < 64
  · unfold read_size
    rw [if_pos h1]
    omega
  · by_cases h2 : n % 4 = 0
    · unfold read_size
      rw [if_neg h1, if_neg (by omega)]
    · rw [read_size_round n (by omega) h2 hle]
      omega

/-- C4 counterexample: at `rxLen = 4093` the mask `0xffc` wraps and
the underlying read size is 0, not the claimed round-up 4096. -/
theorem read_size_cex :
    64 ≤ 4093 ∧ 4093 % 4 ≠ 0 ∧ read_size 4093 = 0 ∧ read_size 4093 ≠ 4093 + 3 := by
  decide

/-- C4 amended: for `1 ≤ rxLen ≤ 4092` the underlying USB read size is
64 when `rxLen < 64`, `rxLen` when it is a multiple of 4, and `rxLen`
rounded up to the next multiple of 4 otherwise (beyond 4092 the mask
`(rxLen + 3) & 0xffc` wraps instead); the returned bytes are the device
read result truncated to exactly `rxLen`. -/
theorem read_path_spec (n : Nat) (h1 : 1 ≤ n) (h2 : n ≤ 4092)
    (dev : UsbDev) (st : XferSt) (l : List Nat)
    (hr : dev.read st.op (read_size n) = some l)
    (hl : l.length = read_size n) :
    (n < 64 → read_size n = 64) ∧
    (64 ≤ n → n % 4 = 0 → read_size n = n) ∧
    (64 ≤ n → n % 4 ≠ 0 → read_size n = n + (4 - n % 4)) ∧
    devRead dev st n = (.ok (l.take n), ⟨st.counter, st.op + 1⟩) ∧
    (l.take n).length = n := by
    refine ⟨?_, ?_, ?_, ?_, ?_⟩
    · intro hlt
      unfold read_size
      rw [if_pos hlt]
    · intro hge hm
      unfold read_size
      rw [if_neg (by omega), if_neg (by omega)]
    · intro hge hm
      exact read_size_round n hge hm h2
    · unfold devRead
      rw [hr]
    · rw [List.length_take, hl]
      have := read_size_ge n h2
      omega

/-- Witness for C4 at the spec example `rxLen = 10`: a 64-byte
underlying read whose first 10 bytes are returned. -/
theorem read_path_spec_w :
    (10 < 64 → read_size 10 = 64) ∧
    devRead devOk ⟨0, 0⟩ 10 = (.ok ((List.range 64).take 10), ⟨0, 1⟩) ∧
    ((List.range 64).take 10).length = 10 := by
  have h := read_path_spec 10 (by decide) (by decide) devOk ⟨0, 0⟩
    (List.range 64) (by decide) (by decide)
  exact ⟨h.1, h.2.2.2.1, h.2.2.2.2⟩

/-! ## Locator lemmas -/

/-- Every device matches at most one entry of `DEV_TYPES`: the product
IDs of the catalog are pairwise distinct. -/
lemma devMatches_cases (d : UsbDevice) :
    devMatches d = [] ∨ ∃ t, devMatches d = [t] := by
  by_cases hv : d.idVendor = 1155
  · by_cases h1 : d.idProduct = 14152
    · exact .inr ⟨⟨"V2", 1155, 14152, 2, 129⟩,
        by simp [devMatches, DEV_TYPES, typeMatches, hv, h1]⟩
    · by_cases h2 : d.idProduct = 14155
      · exact .inr ⟨⟨"V2-1", 1155, 14155, 1, 129⟩,
          by simp [devMatches, DEV_TYPES, typeMatches, hv, h2, h1]⟩
      · by_cases h3 : d.idProduct = 14162
        · exact .inr ⟨⟨"V2-1", 1155, 14162, 1, 129⟩,
            by simp [devMatches, DEV_TYPES, typeMatches, hv, h3, h1, h2]⟩
        · by_cases h4 : d.idProduct = 14158
          · exact .inr ⟨⟨"V3E", 1155, 14158, 1, 129⟩,
              by simp [devMatches, DEV_TYPES, typeMatches, hv, h4, h1, h2, h3]⟩
          · by_cases h5 : d.idProduct = 14159
            · exact .inr ⟨⟨"V3", 1155, 14159, 1, 129⟩,
                by simp [devMatches, DEV_TYPES, typeMatches, hv, h5, h1, h2, h3, h4]⟩
            · by_cases h6 : d.idProduct = 14163
              · exact .inr ⟨⟨"V3", 1155, 14163, 1, 129⟩,
                  by simp [devMatches, DEV_TYPES, typeMatches, hv, h6,
                    h1, h2, h3, h4, h5]⟩
              · exact .inl (by
                  simp [devMatches, DEV_TYPES, typeMatches, hv,
                    h1, h2, h3, h4, h5, h6])
  · exact .inl (by simp [devMatches, DEV_TYPES, typeMatches, hv])

/-- A device with no matching descriptor leaves the inner scan state
unchanged. -/
lemma scanTypes_eq_nil (serial : Option String) (index : Nat)
    (d : UsbDevice) :
    ∀ (l : List DevType) (st : LocSt), l.filter (typeMatches d) = [] →
      scanTypes serial index d l st = st := by
  intro l
  induction l with
  | nil => intro st _; rfl
  | cons t ts ih =>
      intro st hf
      rw [List.filter_cons] at hf
      by_cases ht : typeMatches d t
      · rw [if_pos ht] at hf
        simp at hf
      · rw [if_neg ht] at hf
        simp only [scanTypes, if_neg ht]
        exact ih st hf

/-- A device with exactly one matching descriptor selects it, bumps
`num_stlink`, and flips `multiple_devices` exactly when no truthy
serial was supplied, `index = 0`, and a device was already selected. -/
lemma scanTypes_eq_single (serial : Option String) (index : Nat)
    (d : UsbDevice) :
    ∀ (l : List DevType) (st : LocSt) (t : DevType),
      l.filter (typeMatches d) = [t] →
      scanTypes serial index d l st =
        ⟨some (d, t), st.numStlink + 1,
          st.multipleDevices ||
            (!serialTruthy serial && index == 0 && st.dev.isSome)⟩ := by
  intro l
  induction l with
  | nil => intro st t h; simp at h
  | cons u us ih =>
      intro st t h
      rw [List.filter_cons] at h
      by_cases hu : typeMatches d u
      · rw [if_pos hu] at h
        injection h with h1 h2
        subst h1
        simp only [scanTypes, if_pos hu]
        exact scanTypes_eq_nil serial index d us _ h2
      · rw [if_neg hu] at h
        simp only [scanTypes, if_neg hu]
        exact ih st t h

/-- The match pairs are one per matched device: their count equals the
number of matched devices. -/
lemma matchList_length (devs : List UsbDevice) :
    (matchList devs).length = numMatched devs := by
  induction devs with
  | nil => rfl
  | cons d ds ih =>
      rcases devMatches_cases d with h | ⟨t, h⟩
      · have hm : matchList (d :: ds) = matchList ds := by
          simp [matchList, h]
        have hn : numMatched (d :: ds) = numMatched ds := by
          simp [numMatched, List.filter_cons, h]
        rw [hm, hn, ih]
      · have hm : matchList (d :: ds) = (d, t) :: matchList ds := by
          simp [matchList, h]
        have hn : numMatched (d :: ds) = numMatched ds + 1 := by
          simp [numMatched, List.filter_cons, h]
        rw [hm, hn, List.length_cons, ih]

/-- On a non-empty list, `lastOpt` is the last element. -/
lemma lastOpt_eq : ∀ (l : List α) (a : Option α), l ≠ [] →
    lastOpt l a = l.getLast? := by
  intro l
  induction l with
  | nil => intro a h; exact absurd rfl h
  | cons x xs ih =>
      intro a h
      cases xs with
      | nil => rfl
      | cons y ys =>
          show lastOpt (y :: ys) (some x) = (x :: y :: ys).getLast?
          rw [List.getLast?_cons_cons]
          exact ih (some x) (by simp)

/-- Scan characterization for `serial = None`, `index = 0`: the
tentative selection is the last match, `num_stlink` counts all match
pairs, and `multiple_devices` is set exactly when at least two matches
were ever seen (counting a pre-selected device). -/
lemma scanDevices_none_zero :
    ∀ (devs : List UsbDevice) (st : LocSt),
      (st.dev.isSome = true → 1 ≤ st.numStlink) →
      (scanDevices none 0 devs st).dev = lastOpt (matchList devs) st.dev ∧
      (scanDevices none 0 devs st).numStlink =
        st.numStlink + (matchList devs).length ∧
      ((scanDevices none 0 devs st).multipleDevices = true ↔
        (st.multipleDevices = true ∨
          2 ≤ (if st.dev.isSome then 1 else 0) + (matchList devs).length)) := by
  intro devs
  induction devs with
  | nil =>
      intro st hinv
      refine ⟨rfl, by simp [matchList, scanDevices], ?_⟩
      show st.multipleDevices = true ↔ _
      cases hd : st.dev <;> simp [matchList, hd]
  | cons d ds ih =>
      intro st hinv
      rcases devMatches_cases d with h | ⟨t, h⟩
      · have hst1 : scanTypes none 0 d DEV_TYPES st = st :=
          scanTypes_eq_nil none 0 d DEV_TYPES st h
        have hml : matchList (d :: ds) = matchList ds := by
          simp [matchList, h]
        have hstep : scanDevices none 0 (d :: ds) st =
            scanDevices none 0 ds st := by
          simp only [scanDevices, hst1]
          cases hd : st.dev with
          | none => rfl
          | some p =>
              have hnum : 1 ≤ st.numStlink := hinv (by rw [hd]; rfl)
              have hb : (0 == st.numStlink) = false := by
                simp
                omega
              simp [serialTruthy, hb]
        rw [hstep, hml]
        exact ih st hinv
      · have hst1 : scanTypes none 0 d DEV_TYPES st =
            ⟨some (d, t), st.numStlink + 1,
              st.multipleDevices || (true && (0 == 0) && st.dev.isSome)⟩ :=
          scanTypes_eq_single none 0 d DEV_TYPES st t h
        have hml : matchList (d :: ds) = (d, t) :: matchList ds := by
          simp [matchList, h]
        have hb : (0 == st.numStlink + 1) = false := by
          simp
        have hstep : scanDevices none 0 (d :: ds) st =
            scanDevices none 0 ds
              ⟨some (d, t), st.numStlink + 1,
                st.multipleDevices || st.dev.isSome⟩ := by
          simp only [scanDevices, hst1]
          simp [serialTruthy, hb]
        rw [hstep, hml]
        obtain ⟨i1, i2, i3⟩ := ih
          ⟨some (d, t), st.numStlink + 1,
            st.multipleDevices || st.dev.isSome⟩
          (fun _ => Nat.le_add_left 1 st.numStlink)
        refine ⟨?_, ?_, ?_⟩
        · rw [i1]
          rfl
        · rw [i2]
          simp [List.length_cons]
          omega
        · rw [i3]
          cases hd : st.dev <;> cases hmu : st.multipleDevices <;>
            simp [hd, hmu, List.length_cons] <;> omega

/-! ## Claim theorems: device locator -/

/-- C5: with no serial and `index = 0`, construction raises
`AmbiguousSelection` if and only if more than one enumerated device
matches a descriptor, and with exactly one match pair it returns that
device bound to its descriptor (so `AmbiguousSelection` is not
raised). -/
theorem locate_ambiguity (devs : List UsbDevice) :
    (locate none 0 devs = .error .ambiguous ↔ 2 ≤ numMatched devs) ∧
    (∀ d t, matchList devs = [(d, t)] → locate none 0 devs = .ok (d, t)) := by
  obtain ⟨h1, h2, h3⟩ := scanDevices_none_zero devs ⟨none, 0, false⟩
    (by intro h; simp at h)
  have hiff : ((scanDevices none 0 devs ⟨none, 0, false⟩).multipleDevices = true)
      ↔ 2 ≤ (matchList devs).length := by
    rw [h3]
    simp
  constructor
  · rw [← matchList_length devs]
    constructor
    · intro hl
      by_cases hm :
        (scanDevices none 0 devs ⟨none, 0, false⟩).multipleDevices = true
      · exact hiff.mp hm
      · exfalso
        simp only [locate] at hl
        rw [if_neg hm] at hl
        rcases hdev : (scanDevices none 0 devs ⟨none, 0, false⟩).dev with _ | p
        · rw [hdev] at hl
          simp at hl
        · rw [hdev] at hl
          simp at hl
    · intro hlen
      simp only [locate]
      rw [if_pos (hiff.mpr hlen)]
  · intro d t hml
    have hmult :
        ¬((scanDevices none 0 devs ⟨none, 0, false⟩).multipleDevices = true) := by
      rw [hiff, hml]
      simp
    simp only [locate]
    rw [if_neg hmult, h1, hml]
    rfl

/-- Witness for C5 on a single attached ST-Link/V2: it is selected and
no ambiguity error is raised. -/
theorem locate_ambiguity_w :
    locate none 0 [dA] = .ok (dA, ⟨"V2", 1155, 14152, 2, 129⟩) ∧
    ¬(locate none 0 [dA] = .error .ambiguous) := by
  have h := locate_ambiguity [dA]
  refine ⟨h.2 dA ⟨"V2", 1155, 14152, 2, 129⟩ (by decide), ?_⟩
  rw [h.1]
  decide

/-- Scan characterization for `serial = None` and a positive in-range
`index = k`: the scan stops at the k-th match pair, `num_stlink` ends
at exactly `k`, and `multiple_devices` is never newly set. -/
lemma scanDevices_index (k : Nat) :
    ∀ (devs : List UsbDevice) (st : LocSt),
      st.numStlink < k → k ≤ st.numStlink + (matchList devs).length →
      (scanDevices none k devs st).dev =
        (matchList devs)[k - st.numStlink - 1]? ∧
      (scanDevices none k devs st).numStlink = k ∧
      (scanDevices none k devs st).multipleDevices = st.multipleDevices := by
  intro devs
  induction devs with
  | nil =>
      intro st hlt hle
      simp [matchList] at hle
      omega
  | cons d ds ih =>
      intro st hlt hle
      rcases devMatches_cases d with h | ⟨t, h⟩
      · have hst1 : scanTypes none k d DEV_TYPES st = st :=
          scanTypes_eq_nil none k d DEV_TYPES st h
        have hml : matchList (d :: ds) = matchList ds := by
          simp [matchList, h]
        have hb : (k == st.numStlink) = false := by
          simp
          omega
        have hstep : scanDevices none k (d :: ds) st =
            scanDevices none k ds st := by
          simp only [scanDevices, hst1]
          cases hd : st.dev with
          | none => rfl
          | some p => simp [serialTruthy, hb]
        rw [hml] at hle
        rw [hstep, hml]
        exact ih st hlt hle
      · have hk1 : (k == 0) = false := by
          simp
          omega
        have hst1 : scanTypes none k d DEV_TYPES st =
            ⟨some (d, t), st.numStlink + 1, st.multipleDevices⟩ := by
          rw [scanTypes_eq_single none k d DEV_TYPES st t h]
          simp [serialTruthy, hk1]
        have hml : matchList (d :: ds) = (d, t) :: matchList ds := by
          simp [matchList, h]
        by_cases hk : k = st.numStlink + 1
        · have hstep : scanDevices none k (d :: ds) st =
              ⟨some (d, t), st.numStlink + 1, st.multipleDevices⟩ := by
            simp only [scanDevices, hst1]
            simp [serialTruthy, hk]
          rw [hstep, hml]
          have hidx : k - st.numStlink - 1 = 0 := by omega
          rw [hidx]
          exact ⟨by simp, by show st.numStlink + 1 = k; omega, rfl⟩
        · have hb2 : (k == st.numStlink + 1) = false := by
            simp
            omega
          have hstep : scanDevices none k (d :: ds) st =
              scanDevices none k ds
                ⟨some (d, t), st.numStlink + 1, st.multipleDevices⟩ := by
            simp only [scanDevices, hst1]
            simp [serialTruthy, hb2]
          rw [hstep, hml]
          rw [hml] at hle
          obtain ⟨i1, i2, i3⟩ := ih
            ⟨some (d, t), st.numStlink + 1, st.multipleDevices⟩
            (by show st.numStlink + 1 < k; omega)
            (by
              show k ≤ st.numStlink + 1 + (matchList ds).length
              rw [List.length_cons] at hle
              omega)
          refine ⟨?_, i2, i3⟩
          rw [i1]
          show (matchList ds)[k - (st.numStlink + 1) - 1]? =
            ((d, t) :: matchList ds)[k - st.numStlink - 1]?
          have hidx : k - st.numStlink - 1 = (k - (st.numStlink + 1) - 1) + 1 := by
            omega
          rw [hidx, List.getElem?_cons_succ]

/-- C7: with no serial and `index = k` for `1 ≤ k ≤ N` match pairs,
construction selects the k-th match in scan order and never raises
`AmbiguousSelection` (it returns successfully). -/
theorem locate_by_index (devs : List UsbDevice) (k : Nat) (h1 : 1 ≤ k)
    (h2 : k ≤ (matchList devs).length) :
    ∃ p, (matchList devs)[k - 1]? = some p ∧ locate none k devs = .ok p := by
  obtain ⟨i1, i2, i3⟩ := scanDevices_index k devs ⟨none, 0, false⟩
    (by show 0 < k; omega)
    (by show k ≤ 0 + (matchList devs).length; omega)
  have hlt : k - 1 < (matchList devs).length := by omega
  refine ⟨(matchList devs)[k - 1], List.getElem?_eq_getElem hlt, ?_⟩
  simp only [locate]
  rw [if_neg (by rw [i3]; simp)]
  rw [i1]
  show (match (matchList devs)[k - 0 - 1]? with
    | some p => Except.ok p
    | none => Except.error LocErr.notFound) = _
  rw [show k - 0 - 1 = k - 1 from rfl, List.getElem?_eq_getElem hlt]

/-- Witness for C7: two attached probes, `index = 2` selects the second
match. -/
theorem locate_by_index_w :
    ∃ p, (matchList [dA, dB])[2 - 1]? = some p ∧
      locate none 2 [dA, dB] = .ok p :=
  locate_by_index [dA, dB] 2 (by decide) (by decide)

/-- Scan characterization for a supplied non-empty serial that matches
no device: the scan never breaks, the tentative selection ends at the
last match, and `multiple_devices` is never set. -/
lemma scanDevices_serial (s : String) (hs : s.isEmpty = false) (idx : Nat) :
    ∀ (devs : List UsbDevice) (st : LocSt),
      (∀ p ∈ matchList devs, ¬p.1.ident = s) →
      (∀ p, st.dev = some p → ¬p.1.ident = s) →
      (scanDevices (some s) idx devs st).dev = lastOpt (matchList devs) st.dev ∧
      (scanDevices (some s) idx devs st).numStlink =
        st.numStlink + (matchList devs).length ∧
      (scanDevices (some s) idx devs st).multipleDevices =
        st.multipleDevices := by
  have htr : serialTruthy (some s) = true := by
    simp [serialTruthy, hs]
  intro devs
  induction devs with
  | nil =>
      intro st hms hstd
      exact ⟨rfl, by simp [scanDevices, matchList], by simp [scanDevices]⟩
  | cons d ds ih =>
      intro st hms hstd
      rcases devMatches_cases d with h | ⟨t, h⟩
      · have hst1 : scanTypes (some s) idx d DEV_TYPES st = st :=
          scanTypes_eq_nil (some s) idx d DEV_TYPES st h
        have hml : matchList (d :: ds) = matchList ds := by
          simp [matchList, h]
        have hstep : scanDevices (some s) idx (d :: ds) st =
            scanDevices (some s) idx ds st := by
          simp only [scanDevices, hst1]
          cases hd : st.dev with
          | none => rfl
          | some p =>
              have hne : ¬p.1.ident = s := hstd p hd
              have hb : (some s == some p.1.ident) = false := by
                simp
                exact fun he => hne he.symm
              simp [htr, hb]
        rw [hstep, hml]
        rw [hml] at hms
        exact ih st hms hstd
      · have hst1 : scanTypes (some s) idx d DEV_TYPES st =
            ⟨some (d, t), st.numStlink + 1, st.multipleDevices⟩ := by
          rw [scanTypes_eq_single (some s) idx d DEV_TYPES st t h]
          simp [htr]
        have hml : matchList (d :: ds) = (d, t) :: matchList ds := by
          simp [matchList, h]
        have hne : ¬(d, t).1.ident = s := by
          apply hms
          rw [hml]
          exact List.mem_cons_self _ _
        have hb : (some s == some (d, t).1.ident) = false := by
          simp
          exact fun he => hne he.symm
        have hstep : scanDevices (some s) idx (d :: ds) st =
            scanDevices (some s) idx ds
              ⟨some (d, t), st.numStlink + 1, st.multipleDevices⟩ := by
          simp only [scanDevices, hst1]
          simp [htr, hb]
        rw [hstep, hml]
        obtain ⟨i1, i2, i3⟩ := ih
          ⟨some (d, t), st.numStlink + 1, st.multipleDevices⟩
          (by
            intro p hp
            apply hms
            rw [hml]
            exact List.mem_cons_of_mem _ hp)
          (by
            intro p hp
            injection hp with hp2
            rw [← hp2]
            exact hne)
        refine ⟨i1, ?_, i3⟩
        rw [i2]
        show st.numStlink + 1 + (matchList ds).length = _
        rw [List.length_cons]
        omega

/-- Scan characterization for `serial = None` and an index larger than
the total number of matches: the scan never breaks, the tentative
selection ends at the last match, and `multiple_devices` is never
set. -/
lemma scanDevices_bigidx (k : Nat) :
    ∀ (devs : List UsbDevice) (st : LocSt),
      st.numStlink + (matchList devs).length < k →
      (scanDevices none k devs st).dev = lastOpt (matchList devs) st.dev ∧
      (scanDevices none k devs st).numStlink =
        st.numStlink + (matchList devs).length ∧
      (scanDevices none k devs st).multipleDevices = st.multipleDevices := by
  intro devs
  induction devs with
  | nil =>
      intro st hlt
      exact ⟨rfl, by simp [scanDevices, matchList], by simp [scanDevices]⟩
  | cons d ds ih =>
      intro st hlt
      rcases devMatches_cases d with h | ⟨t, h⟩
      · have hst1 : scanTypes none k d DEV_TYPES st = st :=
          scanTypes_eq_nil none k d DEV_TYPES st h
        have hml : matchList (d :: ds) = matchList ds := by
          simp [matchList, h]
        rw [hml] at hlt
        have hb : (k == st.numStlink) = false := by
          simp
          omega
        have hstep : scanDevices none k (d :: ds) st =
            scanDevices none k ds st := by
          simp only [scanDevices, hst1]
          cases hd : st.dev with
          | none => rfl
          | some p => simp [serialTruthy, hb]
        rw [hstep, hml]
        exact ih st hlt
      · have hml : matchList (d :: ds) = (d, t) :: matchList ds := by
          simp [matchList, h]
        rw [hml, List.length_cons] at hlt
        have hk1 : (k == 0) = false := by
          simp
          omega
        have hst1 : scanTypes none k d DEV_TYPES st =
            ⟨some (d, t), st.numStlink + 1, st.multipleDevices⟩ := by
          rw [scanTypes_eq_single none k d DEV_TYPES st t h]
          simp [serialTruthy, hk1]
        have hb2 : (k == st.numStlink + 1) = false := by
          simp
          omega
        have hstep : scanDevices none k (d :: ds) st =
            scanDevices none k ds
              ⟨some (d, t), st.numStlink + 1, st.multipleDevices⟩ := by
          simp only [scanDevices, hst1]
          simp [serialTruthy, hb2]
        rw [hstep, hml]
        obtain ⟨i1, i2, i3⟩ := ih
          ⟨some (d, t), st.numStlink + 1, st.multipleDevices⟩
          (by show st.numStlink + 1 + (matchList ds).length < k; omega)
        refine ⟨i1, ?_, i3⟩
        rw [i2]
        show st.numStlink + 1 + (matchList ds).length = _
        rw [List.length_cons]
        omega

/-- C9 counterexample: an empty supplied serial is falsy in Python, so
with two matched devices (whose identities are both non-empty, i.e.
the selection criterion is never satisfied) and `index = 0` the
constructor raises `AmbiguousSelection` instead of succeeding with the
last match. -/
theorem locate_unsatisfied_cex :
    locate (some "") 0 [dA, dB] = .error .ambiguous ∧
    numMatched [dA, dB] = 2 ∧ ¬dA.ident = "" ∧ ¬dB.ident = "" := by
  decide

/-- C9 amended: when at least one device matches and the selection
criterion can never be satisfied — a supplied NON-EMPTY serial equal to
no matched device's identity, or no serial and an index exceeding the
number of matches — construction still succeeds and returns the last
matched device in scan order.  (A supplied empty serial is falsy and
behaves like no serial at all, reinstating the ambiguity check.) -/
theorem locate_unsatisfied_falls_back (devs : List UsbDevice) :
    (∀ (s : String) (idx : Nat), ¬s = "" → ¬matchList devs = [] →
      (∀ p ∈ matchList devs, ¬p.1.ident = s) →
      ∃ p, (matchList devs).getLast? = some p ∧
        locate (some s) idx devs = .ok p) ∧
    (∀ k, (matchList devs).length < k → ¬matchList devs = [] →
      ∃ p, (matchList devs).getLast? = some p ∧ locate none k devs = .ok p) := by
  constructor
  · intro s idx hs hne hms
    have hse : s.isEmpty = false := by
      rw [← Bool.not_eq_true, String.isEmpty_iff]
      exact hs
    obtain ⟨i1, i2, i3⟩ := scanDevices_serial s hse idx devs ⟨none, 0, false⟩
      hms (by intro p hp; simp at hp)
    have hlast : (matchList devs).getLast?.isSome := by
      rw [List.getLast?_isSome]
      exact hne
    obtain ⟨p, hp⟩ := Option.isSome_iff_exists.mp hlast
    refine ⟨p, hp, ?_⟩
    simp only [locate]
    rw [if_neg (by rw [i3]; simp)]
    rw [i1, lastOpt_eq (matchList devs) none hne, hp]
  · intro k hk hne
    obtain ⟨i1, i2, i3⟩ := scanDevices_bigidx k devs ⟨none, 0, false⟩
      (by show 0 + (matchList devs).length < k; omega)
    have hlast : (matchList devs).getLast?.isSome := by
      rw [List.getLast?_isSome]
      exact hne
    obtain ⟨p, hp⟩ := Option.isSome_iff_exists.mp hlast
    refine ⟨p, hp, ?_⟩
    simp only [locate]
    rw [if_neg (by rw [i3]; simp)]
    rw [i1, lastOpt_eq (matchList devs) none hne, hp]

/-- Witness for C9 amended: two probes; an unmatched serial `"ZZZ"`
(with any index) and an out-of-range index 3 each fall back to the
last match. -/
theorem locate_unsatisfied_falls_back_w :
    (∃ p, (matchList [dA, dB]).getLast? = some p ∧
      locate (some "ZZZ") 7 [dA, dB] = .ok p) ∧
    (∃ p, (matchList [dA, dB]).getLast? = some p ∧
      locate none 3 [dA, dB] = .ok p) :=
  ⟨(locate_unsatisfied_falls_back [dA, dB]).1 "ZZZ" 7 (by decide) (by decide)
      (by decide),
   (locate_unsatisfied_falls_back [dA, dB]).2 3 (by decide) (by decide)⟩

/-! ## Claim theorems: identity resolution -/

/-- C2 counterexample: the code keys on the END OFFSET of the FIRST
run of class characters, not on the length of the longest run of
hexadecimal characters.  For `"zz0000000000000000000000"` (two
non-class characters followed by 22 hex digits) the first run ends at
offset 24, so the code returns the string unchanged, although its
longest hexadecimal run has length 22 ≠ 24 and the claim demands
re-encoding (which would produce a different string). -/
theorem serial_normalize_cex :
    normalize_serial "zz0000000000000000000000" =
      some "zz0000000000000000000000" ∧
    longestHexRun "zz0000000000000000000000".data = 22 ∧
    ¬(String.mk (hexDump "zz0000000000000000000000".data) =
      "zz0000000000000000000000") := by
  decide

/-- C2 amended: for a resolved serial containing at least one character
of the regex class `[0-9a-fA-f]` (which spans `0-9` and ASCII 65-102,
not only hexadecimal digits), the string is re-encoded as two-digit
hex character codes if and only if the end offset of the first maximal
run of class characters differs from 24; otherwise it is returned
unchanged.  (With no class character at all the Python code crashes on
`None.span`.) -/
theorem serial_normalize_spec (s : String) (e : Nat)
    (h : searchEnd s.data 0 = some e) :
    (¬e = 24 → normalize_serial s = some (String.mk (hexDump s.data))) ∧
    (e = 24 → normalize_serial s = some s) := by
  constructor <;> intro he <;> simp [normalize_serial, h, he]

/-- Witness for C2 amended: `"STM32"` consists entirely of class
characters (letters `S`, `T`, `M` fall in the `A`-`f` range), its
first run ends at 5 ≠ 24, so it is hex-dumped. -/
theorem serial_normalize_spec_w :
    searchEnd "STM32".data 0 = some 5 ∧
    normalize_serial "STM32" = some (String.mk (hexDump "STM32".data)) :=
  ⟨by decide,
   (serial_normalize_spec "STM32" 5 (by decide)).1 (by decide)⟩

set_option maxRecDepth 10000 in
/-- C3 counterexample: at vendor 0x0483, product 0x3748, bus 1,
address 2, the code's identity differs from the claimed base-32 SHA-1
of the text built from 4-digit lowercase hex IDs and the location
parameters joined by commas (the spec-modelled
`spec_device_unique_id`, which hashes `"0483,3748,1,2"`). -/
theorem derive_identity_cex :
    spec_device_unique_id 0x483 0x3748 [1, 2] =
      "IODPZKRG4CUGUHZHSNSTAUS6KDZFEOJD" ∧
    ¬(generate_device_unique_id 0x483 0x3748 [1, 2] =
      spec_device_unique_id 0x483 0x3748 [1, 2]) := by
  decide

set_option maxRecDepth 10000 in
/-- C3 amended: `_generate_device_unique_id` base-32 encodes the SHA-1
hash of the text built from `f"{vid:4x},{pid:4x},"` — width-4
SPACE-padded lowercase hex — followed by `",".join(str(locations))`,
which interleaves commas between the CHARACTERS of the locations
tuple's repr.  At vendor 0x0483, product 0x3748, bus 1, address 2 the
hashed ASCII text is `" 483,3748,(,1,,, ,2,)"` and the identity is
`"GM22MUJPRUTZNZTMLRNNRXQRWLBIIH2S"`. -/
theorem derive_identity_eval :
    (fmtHex4 0x483 ++ [','] ++ fmtHex4 0x3748 ++ [','] ++
      List.intersperse ',' (pyTupleRepr [1, 2])) =
      " 483,3748,(,1,,, ,2,)".data ∧
    generate_device_unique_id 0x483 0x3748 [1, 2] =
      "GM22MUJPRUTZNZTMLRNNRXQRWLBIIH2S" := by
  decide

end Stlink
